import Mathlib

/-!
# AutoScholar orchestration core — formal model

A shallow embedding, in Lean 4, of the orchestration workflow of the
AutoScholar repository (`app/services/orchestrator.py`,
`app/services/llm_service.py`, `app/services/crawler.py`,
`app/utils/retry.py`, `app/api/routes.py`).

The effectful boundaries (database flushes, the LLM call, the document
write) are modelled as explicit outcome values supplied to the pure
transition functions; everything else is translated directly from the
Python source.  Machine-level concerns (wall-clock time, SQL, HTTP) are
abstracted to the level at which the specification speaks about them.
-/

namespace AutoScholar

/-- Lifecycle status of a `Paper` row
(`app/models/paper.py`: `NEW, PROCESSING, COMPLETED, FAILED`). -/
inductive PaperStatus
  | NEW
  | PROCESSING
  | COMPLETED
  | FAILED
deriving DecidableEq, Repr

/-- Lifecycle status of a `Report` row (`PENDING, SUCCESS, FAILED`). -/
inductive ReportStatus
  | PENDING
  | SUCCESS
  | FAILED
deriving DecidableEq, Repr

/-- Lifecycle status of a `Task` audit row
(`app/models/task.py`: `PENDING, RUNNING, SUCCESS, FAILED`). -/
inductive TaskStatus
  | PENDING
  | RUNNING
  | SUCCESS
  | FAILED
deriving DecidableEq, Repr

/-- The error taxonomy raised by the code paths modelled here.
`parseError` is the `ValueError` raised by `_parse_llm_response`,
`validationMissing`/`validationBad` the `ValueError`s raised by
`_validate_report_content`, `notFound` the `ValueError` raised by
`regenerate_report`, `transport` an `httpx.HTTPError`/timeout, and
`persistence` a database failure. -/
inductive Err
  | parseError (msg : String)
  | validationMissing (fields : List String)
  | validationBad (field : String)
  | notFound (paper_id : String)
  | transport (msg : String)
  | persistence (msg : String)
  | llmFailure (msg : String)
deriving DecidableEq, Repr

/-- `str(e)` for the modelled exceptions: the message text each raise
site in the source attaches to the exception. -/
def Err.text : Err → String
  | .parseError m => "Failed to parse LLM response as JSON: " ++ m
  | .validationMissing fs => "Missing required fields: " ++ toString fs
  | .validationBad f => "Field " ++ f ++ " must be a non-empty string"
  | .notFound pid => "Paper not found: " ++ pid
  | .transport m => m
  | .persistence m => m
  | .llmFailure m => m

/-- The token-usage breakdown extracted from the provider response
(`llm_service.generate_report`). -/
structure TokenUsage where
  prompt_tokens : Nat
  completion_tokens : Nat
  total_tokens : Nat
deriving DecidableEq, Repr

/-- A `Paper` row: the fields of `app/models/paper.py` that the
orchestrator reads or writes. -/
structure Paper where
  paper_id : String
  title : String
  authors : List String
  abstract : String
  source : String
  categories : List String
  status : PaperStatus
deriving DecidableEq, Repr

/-- The dictionary returned by `LLMService.generate_report` on success. -/
structure LLMResult where
  content : List (String × String)
  generation_time : Option Nat
  token_usage : Option TokenUsage
  llm_provider : String
  llm_model : String
deriving DecidableEq, Repr

/-- The dictionary returned by `create_markdown_report` on success. -/
structure DocResult where
  filepath : String
deriving DecidableEq, Repr

/-- A `Report` row as constructed in `_generate_single_report`. -/
structure Report where
  paper_id : String
  llm_provider : String
  llm_model : String
  report_content : List (String × String)
  markdown_path : String
  generation_time : Option Nat
  token_usage : Option TokenUsage
  status : ReportStatus
deriving DecidableEq, Repr

instance {ε α : Type} [DecidableEq ε] [DecidableEq α] : DecidableEq (Except ε α)
  | .ok a, .ok b =>
    if h : a = b then .isTrue (by rw [h]) else .isFalse (by simp [h])
  | .ok _, .error _ => .isFalse (by simp)
  | .error _, .ok _ => .isFalse (by simp)
  | .error a, .error b =>
    if h : a = b then .isTrue (by rw [h]) else .isFalse (by simp [h])

/-- The outcomes of the three effectful steps inside the `try` block of
`_generate_single_report`: the LLM generation (`generate_paper_report`),
the document write (`create_markdown_report`), and the final database
flush persisting the `Report` row and the `COMPLETED` status. -/
structure StepOutcome where
  llm : Except Err LLMResult
  doc : Except Err DocResult
  flush : Except Err Unit
deriving DecidableEq, Repr

/-- Shallow embedding of `PaperOrchestrator._generate_single_report`
(`app/services/orchestrator.py:178-267`).  The paper status is first set
to `PROCESSING`; inside the `try` block the LLM result, the document
write and the persisting flush each either succeed or raise; the
`except` handler sets the status to `FAILED` and re-raises the original
error; on full success the status is `COMPLETED` and the built `Report`
row is returned. -/
def generateSingleReport (paper : Paper) (o : StepOutcome) :
    Paper × Except Err Report :=
  let p := { paper with status := PaperStatus.PROCESSING }
  match o.llm with
  | .error e => ({ p with status := PaperStatus.FAILED }, .error e)
  | .ok llm =>
    match o.doc with
    | .error e => ({ p with status := PaperStatus.FAILED }, .error e)
    | .ok doc =>
      let report : Report :=
        { paper_id := paper.paper_id
          llm_provider := llm.llm_provider
          llm_model := llm.llm_model
          report_content := llm.content
          markdown_path := doc.filepath
          generation_time := llm.generation_time
          token_usage := llm.token_usage
          status := ReportStatus.SUCCESS }
      match o.flush with
      | .error e => ({ p with status := PaperStatus.FAILED }, .error e)
      | .ok _ => ({ p with status := PaperStatus.COMPLETED }, .ok report)

/-- C1: after any invocation of `_generate_single_report`, whatever the
outcomes of the LLM generation, the document write and the report
persistence, the paper terminates with status `COMPLETED` exactly on
success and `FAILED` on any failure, with the original error propagated;
it is never left at `PROCESSING`. -/
theorem generate_single_report_status (paper : Paper) (o : StepOutcome) :
    (generateSingleReport paper o).1.status ≠ PaperStatus.PROCESSING
    ∧ (∀ r, (generateSingleReport paper o).2 = .ok r →
        (generateSingleReport paper o).1.status = PaperStatus.COMPLETED)
    ∧ (∀ e, (generateSingleReport paper o).2 = .error e →
        (generateSingleReport paper o).1.status = PaperStatus.FAILED
        ∧ (o.llm = .error e ∨ o.doc = .error e ∨ o.flush = .error e)) := by
  obtain ⟨llm, doc, flush⟩ := o
  rcases llm with e | l <;> rcases doc with e' | d <;> rcases flush with e'' | u <;>
    simp [generateSingleReport]

/-- A concrete paper used to instantiate the hypothetical theorems. -/
def samplePaper : Paper :=
  { paper_id := "arxiv-2401.00001"
    title := "Sample"
    authors := ["A. Author"]
    abstract := "An abstract."
    source := "HUGGINGFACE"
    categories := []
    status := PaperStatus.NEW }

/-- A concrete successful LLM result. -/
def sampleLLM : LLMResult :=
  { content := [("core_summary", "ok")]
    generation_time := some 3
    token_usage := none
    llm_provider := "openai"
    llm_model := "gpt-4" }

/-- A concrete all-successful step outcome. -/
def sampleOutcome : StepOutcome :=
  { llm := .ok sampleLLM
    doc := .ok { filepath := "reports/2024/01/x.md" }
    flush := .ok () }

/-- Witness for C1 at a concrete paper and outcome. -/
theorem generate_single_report_status_witness :
    (generateSingleReport samplePaper sampleOutcome).1.status ≠ PaperStatus.PROCESSING
    ∧ (∀ r, (generateSingleReport samplePaper sampleOutcome).2 = .ok r →
        (generateSingleReport samplePaper sampleOutcome).1.status = PaperStatus.COMPLETED)
    ∧ (∀ e, (generateSingleReport samplePaper sampleOutcome).2 = .error e →
        (generateSingleReport samplePaper sampleOutcome).1.status = PaperStatus.FAILED
        ∧ (sampleOutcome.llm = .error e ∨ sampleOutcome.doc = .error e
            ∨ sampleOutcome.flush = .error e)) :=
  generate_single_report_status samplePaper sampleOutcome

/-- Python truthiness of an optional integer argument: `if limit:` is
taken exactly when the value is present and non-zero. -/
def pyTruthy : Option Nat → Bool
  | none => false
  | some n => n != 0

/-- The selection query of `generate_reports_batch`
(`orchestrator.py:137-143`): all papers with `status == "NEW"`, with
`.limit(limit)` applied only when `limit` is truthy. -/
def selectNewPapers (db : List Paper) (limit : Option Nat) : List Paper :=
  let q := db.filter (fun p => decide (p.status = PaperStatus.NEW))
  if pyTruthy limit then q.take (limit.getD 0) else q

/-- The paper object after one iteration of the batch loop: the result
of `_generate_single_report`, with the `except` handler of the loop
(`orchestrator.py:156-165`) additionally setting `status = "FAILED"` on
a caught exception. -/
def batchResultPaper (p : Paper) (o : StepOutcome) : Paper :=
  match generateSingleReport p o with
  | (p', .ok _) => p'
  | (p', .error _) => { p' with status := PaperStatus.FAILED }

/-- The per-paper loop of `generate_reports_batch`
(`orchestrator.py:152-166`): each selected paper is processed by
`_generate_single_report`; an exception is caught, counted as a
failure, and the loop continues with the next paper.  Returns the
processed papers together with the success and failure counts. -/
def batchLoop (env : Paper → StepOutcome) : List Paper → List Paper × Nat × Nat
  | [] => ([], 0, 0)
  | p :: rest =>
    let r := batchLoop env rest
    match (generateSingleReport p (env p)).2 with
    | .ok _ => (batchResultPaper p (env p) :: r.1, r.2.1 + 1, r.2.2)
    | .error _ => (batchResultPaper p (env p) :: r.1, r.2.1, r.2.2 + 1)

/-- The `{total_processed, success, failed}` summary returned by
`generate_reports_batch`. -/
structure BatchCounts where
  total_processed : Nat
  success : Nat
  failed : Nat
deriving DecidableEq, Repr

/-- The ORM session holds one row object per `paper_id` and the loop
mutates the selected rows in place; the table after commit is each row
replaced by its processed version when one exists. -/
def updateDb (db processed : List Paper) : List Paper :=
  db.map fun p =>
    match processed.find? (fun q => q.paper_id == p.paper_id) with
    | some q => q
    | none => p

/-- Shallow embedding of `PaperOrchestrator.generate_reports_batch`
(`orchestrator.py:121-176`): select the `NEW` papers (optionally
limited), early-return zero counts when none, otherwise run the
per-paper loop and report `total_processed = len(papers)`. -/
def generateReportsBatch (db : List Paper) (limit : Option Nat)
    (env : Paper → StepOutcome) : List Paper × BatchCounts :=
  let papers := selectNewPapers db limit
  if papers.isEmpty then
    (db, ⟨0, 0, 0⟩)
  else
    let r := batchLoop env papers
    (updateDb db r.1, ⟨papers.length, r.2.1, r.2.2⟩)

theorem batchLoop_fst (env : Paper → StepOutcome) (l : List Paper) :
    (batchLoop env l).1 = l.map (fun p => batchResultPaper p (env p)) := by
  induction l with
  | nil => rfl
  | cons p rest ih =>
    simp only [batchLoop, List.map_cons]
    rcases h : (generateSingleReport p (env p)).2 with e | r <;> simp [h, ih]

theorem batchLoop_counts (env : Paper → StepOutcome) (l : List Paper) :
    (batchLoop env l).2.1 + (batchLoop env l).2.2 = l.length := by
  induction l with
  | nil => rfl
  | cons p rest ih =>
    simp only [batchLoop, List.length_cons]
    rcases h : (generateSingleReport p (env p)).2 with e | r <;>
      simp only [h] <;> omega

/-- C2: batch analysis catches and counts a per-paper exception without
stopping the run: the processed list is exactly the selected papers
each mapped through its own single-report result (so every selected
paper is attempted, independently of other papers' failures), and the
returned counts satisfy `success + failed = total_processed` with
`total_processed` the number of selected papers. -/
theorem generate_reports_batch_counts (db : List Paper) (limit : Option Nat)
    (env : Paper → StepOutcome) :
    (generateReportsBatch db limit env).2.success
        + (generateReportsBatch db limit env).2.failed
        = (generateReportsBatch db limit env).2.total_processed
    ∧ (generateReportsBatch db limit env).2.total_processed
        = (selectNewPapers db limit).length
    ∧ (batchLoop env (selectNewPapers db limit)).1
        = (selectNewPapers db limit).map (fun p => batchResultPaper p (env p)) := by
  refine ⟨?_, ?_, batchLoop_fst env _⟩
  · unfold generateReportsBatch
    by_cases h : (selectNewPapers db limit).isEmpty <;>
      simp [h, batchLoop_counts]
  · unfold generateReportsBatch
    by_cases h : (selectNewPapers db limit).isEmpty
    · simp [h, List.isEmpty_iff.mp h]
    · simp [h]

theorem selectNewPapers_mem {db : List Paper} {limit : Option Nat} {q : Paper}
    (h : q ∈ selectNewPapers db limit) :
    q ∈ db ∧ q.status = PaperStatus.NEW := by
  unfold selectNewPapers at h
  by_cases ht : pyTruthy limit = true
  · simp only [ht, if_pos] at h
    have h' := List.mem_of_mem_take h
    simpa using List.mem_filter.mp h'
  · simp only [ht] at h
    simpa using List.mem_filter.mp h

theorem batchResultPaper_id (p : Paper) (o : StepOutcome) :
    (batchResultPaper p o).paper_id = p.paper_id := by
  unfold batchResultPaper generateSingleReport
  rcases o.llm with e | l <;> rcases o.doc with e' | d <;>
    rcases o.flush with e'' | u <;> rfl

/-- C6: batch analysis selects only papers whose status is `NEW`
(capped at the limit when one is given and truthy), and — provided
`paper_id` is unique across the store, which the schema enforces —
every paper whose status is not `NEW` is left exactly as it was, at its
position, by the whole batch run. -/
theorem generate_reports_batch_frame (db : List Paper) (limit : Option Nat)
    (env : Paper → StepOutcome)
    (hids : (db.map Paper.paper_id).Nodup) :
    (∀ q ∈ selectNewPapers db limit, q.status = PaperStatus.NEW)
    ∧ (∀ n, limit = some n → n ≠ 0 → (selectNewPapers db limit).length ≤ n)
    ∧ (∀ (i : Nat) (p : Paper), db[i]? = some p → p.status ≠ PaperStatus.NEW →
        (generateReportsBatch db limit env).1[i]? = some p) := by
  refine ⟨fun q hq => (selectNewPapers_mem hq).2, ?_, ?_⟩
  · intro n hn hn0
    unfold selectNewPapers
    subst hn
    simp [pyTruthy, hn0, List.length_take]
  · intro i p hip hpnew
    unfold generateReportsBatch
    by_cases h : (selectNewPapers db limit).isEmpty
    · simpa [h] using hip
    · simp only [h, Bool.false_eq_true, if_neg, not_false_iff]
      unfold updateDb
      rw [List.getElem?_map, hip, Option.map_some']
      have hfind :
          ((batchLoop env (selectNewPapers db limit)).1).find?
            (fun q => q.paper_id == p.paper_id) = none := by
        rw [List.find?_eq_none]
        intro q hq hbeq
        rw [batchLoop_fst] at hq
        obtain ⟨p₀, hp₀, rfl⟩ := List.mem_map.mp hq
        obtain ⟨hp₀db, hp₀new⟩ := selectNewPapers_mem hp₀
        have hid : p₀.paper_id = p.paper_id := by
          simpa [batchResultPaper_id] using hbeq
        have hpdb : p ∈ db := List.getElem?_mem hip
        have : p₀ = p := List.inj_on_of_nodup_map hids hp₀db hpdb hid
        rw [this] at hp₀new
        exact hpnew hp₀new
      simp [hfind]

/-- A store used to instantiate the batch-frame theorem: one already
`COMPLETED` paper and one `NEW` paper. -/
def sampleDb : List Paper :=
  [{ samplePaper with paper_id := "arxiv-1", status := PaperStatus.COMPLETED },
   { samplePaper with paper_id := "arxiv-2", status := PaperStatus.NEW }]

/-- Witness for C6 at a concrete store, limit and outcome oracle. -/
theorem generate_reports_batch_frame_witness :
    (∀ q ∈ selectNewPapers sampleDb (some 1), q.status = PaperStatus.NEW)
    ∧ (∀ n, (some 1 : Option Nat) = some n → n ≠ 0 →
        (selectNewPapers sampleDb (some 1)).length ≤ n)
    ∧ (∀ (i : Nat) (p : Paper), sampleDb[i]? = some p → p.status ≠ PaperStatus.NEW →
        (generateReportsBatch sampleDb (some 1) (fun _ => sampleOutcome)).1[i]?
          = some p) :=
  generate_reports_batch_frame sampleDb (some 1) (fun _ => sampleOutcome)
    (by decide)

/-- A fetched raw paper record (`PaperCreate` schema): the fields the
ingest loop reads. -/
structure PaperCreate where
  paper_id : String
  title : String
  authors : List String
  abstract : String
  source : String
deriving DecidableEq, Repr

/-- The `{total_crawled, saved, duplicates, failed}` summary returned by
`crawl_and_save_papers`. -/
structure CrawlCounts where
  total_crawled : Nat
  saved : Nat
  duplicates : Nat
  failed : Nat
deriving DecidableEq, Repr

/-- The per-record loop of `crawl_and_save_papers`
(`orchestrator.py:60-107`).  The store is the set of `paper_id`s
already persisted (kept as a list in insertion order).  For each
fetched record: if a row with the same `paper_id` exists, count a
duplicate and skip with no update and no error; otherwise construct the
row and flush it — `saveOk` gives the outcome of that flush, and a
raised persistence error is caught, counted as failed, and the loop
continues.  Returns the store and the `(saved, duplicates, failed)`
counts. -/
def saveLoop (saveOk : PaperCreate → Bool) :
    List String → List PaperCreate → List String × Nat × Nat × Nat
  | store, [] => (store, 0, 0, 0)
  | store, p :: rest =>
    if p.paper_id ∈ store then
      let r := saveLoop saveOk store rest
      (r.1, r.2.1, r.2.2.1 + 1, r.2.2.2)
    else if saveOk p then
      let r := saveLoop saveOk (store ++ [p.paper_id]) rest
      (r.1, r.2.1 + 1, r.2.2.1, r.2.2.2)
    else
      let r := saveLoop saveOk store rest
      (r.1, r.2.1, r.2.2.1, r.2.2.2 + 1)

/-- Shallow embedding of `PaperOrchestrator.crawl_and_save_papers`
(`orchestrator.py:31-119`) after the fetch returned `papers`: run the
dedup-and-save loop and report `total_crawled = len(papers)` together
with the counters. -/
def crawlAndSavePapers (store : List String) (papers : List PaperCreate)
    (saveOk : PaperCreate → Bool) : List String × CrawlCounts :=
  let r := saveLoop saveOk store papers
  (r.1, ⟨papers.length, r.2.1, r.2.2.1, r.2.2.2⟩)

theorem saveLoop_nodup (saveOk : PaperCreate → Bool) (papers : List PaperCreate)
    (store : List String) (h : store.Nodup) :
    (saveLoop saveOk store papers).1.Nodup := by
  induction papers generalizing store with
  | nil => exact h
  | cons p rest ih =>
    by_cases hmem : p.paper_id ∈ store
    · simpa [saveLoop, hmem] using ih store h
    · by_cases hok : saveOk p = true
      · have hstore : (store ++ [p.paper_id]).Nodup := by
          simp [List.nodup_append, h, hmem]
        simpa [saveLoop, hmem, hok] using ih (store ++ [p.paper_id]) hstore
      · simpa [saveLoop, hmem, hok] using ih store h

theorem saveLoop_all_present (saveOk : PaperCreate → Bool)
    (papers : List PaperCreate) (store : List String)
    (h : ∀ p ∈ papers, p.paper_id ∈ store) :
    saveLoop saveOk store papers = (store, 0, papers.length, 0) := by
  induction papers with
  | nil => rfl
  | cons p rest ih =>
    have hp : p.paper_id ∈ store := h p (by simp)
    have hrest := ih fun q hq => h q (by simp [hq])
    simp [saveLoop, hp, hrest]

/-- C4: during ingest a fetched record whose `paper_id` already exists
is skipped — no store update, no error — and counted as a duplicate;
ingest never creates duplicate rows (the store stays `Nodup`); and
re-running ingest when every fetched identifier is already present
leaves the store unchanged with `duplicates` equal to the number of
already-present records and `saved = failed = 0`. -/
theorem crawl_and_save_papers_idempotent (store : List String)
    (papers : List PaperCreate) (saveOk : PaperCreate → Bool)
    (hnodup : store.Nodup) :
    (∀ p rest, p.paper_id ∈ store →
        saveLoop saveOk store (p :: rest)
          = ((saveLoop saveOk store rest).1,
             (saveLoop saveOk store rest).2.1,
             (saveLoop saveOk store rest).2.2.1 + 1,
             (saveLoop saveOk store rest).2.2.2))
    ∧ (crawlAndSavePapers store papers saveOk).1.Nodup
    ∧ ((∀ p ∈ papers, p.paper_id ∈ store) →
        crawlAndSavePapers store papers saveOk
          = (store, ⟨papers.length, 0, papers.length, 0⟩)) := by
  refine ⟨fun p rest hp => by simp [saveLoop, hp], ?_, fun hall => ?_⟩
  · exact saveLoop_nodup saveOk papers store hnodup
  · simp [crawlAndSavePapers, saveLoop_all_present saveOk papers store hall]

/-- A concrete re-ingest scenario: records A and B are both already in
the store. -/
def sampleStore : List String := ["arxiv-A", "arxiv-B"]

/-- Concrete fetched records with identifiers A and B. -/
def sampleRecords : List PaperCreate :=
  [{ paper_id := "arxiv-A", title := "A", authors := [], abstract := "a",
     source := "HUGGINGFACE" },
   { paper_id := "arxiv-B", title := "B", authors := [], abstract := "b",
     source := "HUGGINGFACE" }]

/-- Witness for C4 at a concrete store and record list. -/
theorem crawl_and_save_papers_idempotent_witness :
    (∀ p rest, p.paper_id ∈ sampleStore →
        saveLoop (fun _ => true) sampleStore (p :: rest)
          = ((saveLoop (fun _ => true) sampleStore rest).1,
             (saveLoop (fun _ => true) sampleStore rest).2.1,
             (saveLoop (fun _ => true) sampleStore rest).2.2.1 + 1,
             (saveLoop (fun _ => true) sampleStore rest).2.2.2))
    ∧ (crawlAndSavePapers sampleStore sampleRecords (fun _ => true)).1.Nodup
    ∧ ((∀ p ∈ sampleRecords, p.paper_id ∈ sampleStore) →
        crawlAndSavePapers sampleStore sampleRecords (fun _ => true)
          = (sampleStore, ⟨sampleRecords.length, 0, sampleRecords.length, 0⟩)) :=
  crawl_and_save_papers_idempotent sampleStore sampleRecords (fun _ => true)
    (by decide)

theorem saveLoop_total (saveOk : PaperCreate → Bool)
    (papers : List PaperCreate) (store : List String) :
    (saveLoop saveOk store papers).2.1 + (saveLoop saveOk store papers).2.2.1
      + (saveLoop saveOk store papers).2.2.2 = papers.length := by
  induction papers generalizing store with
  | nil => rfl
  | cons p rest ih =>
    by_cases hmem : p.paper_id ∈ store
    · have hstep : saveLoop saveOk store (p :: rest)
          = ((saveLoop saveOk store rest).1, (saveLoop saveOk store rest).2.1,
             (saveLoop saveOk store rest).2.2.1 + 1,
             (saveLoop saveOk store rest).2.2.2) := by
        simp [saveLoop, hmem]
      have := ih store
      rw [hstep]
      dsimp only
      simp only [List.length_cons]
      omega
    · by_cases hok : saveOk p = true
      · have hstep : saveLoop saveOk store (p :: rest)
            = ((saveLoop saveOk (store ++ [p.paper_id]) rest).1,
               (saveLoop saveOk (store ++ [p.paper_id]) rest).2.1 + 1,
               (saveLoop saveOk (store ++ [p.paper_id]) rest).2.2.1,
               (saveLoop saveOk (store ++ [p.paper_id]) rest).2.2.2) := by
          simp [saveLoop, hmem, hok]
        have := ih (store ++ [p.paper_id])
        rw [hstep]
        dsimp only
        simp only [List.length_cons]
        omega
      · have hstep : saveLoop saveOk store (p :: rest)
            = ((saveLoop saveOk store rest).1, (saveLoop saveOk store rest).2.1,
               (saveLoop saveOk store rest).2.2.1,
               (saveLoop saveOk store rest).2.2.2 + 1) := by
          simp [saveLoop, hmem, hok]
        have := ih store
        rw [hstep]
        dsimp only
        simp only [List.length_cons]
        omega

/-- C5: a persistence failure for one fetched record is caught, counted
as failed, and does not abort the remaining records — the loop
continues on the unchanged store — and the returned counts always
satisfy `total_crawled = saved + duplicates + failed`. -/
theorem crawl_and_save_papers_isolation (store : List String)
    (papers : List PaperCreate) (saveOk : PaperCreate → Bool) :
    ((crawlAndSavePapers store papers saveOk).2.saved
        + (crawlAndSavePapers store papers saveOk).2.duplicates
        + (crawlAndSavePapers store papers saveOk).2.failed
      = (crawlAndSavePapers store papers saveOk).2.total_crawled)
    ∧ (∀ p rest, p.paper_id ∉ store → saveOk p = false →
        saveLoop saveOk store (p :: rest)
          = ((saveLoop saveOk store rest).1,
             (saveLoop saveOk store rest).2.1,
             (saveLoop saveOk store rest).2.2.1,
             (saveLoop saveOk store rest).2.2.2 + 1)) := by
  constructor
  · simpa [crawlAndSavePapers] using saveLoop_total saveOk papers store
  · intro p rest hmem hok
    simp [saveLoop, hmem, hok]

/-- Witness for C5: one record fails to persist, the next is still
saved, and the counts add up. -/
theorem crawl_and_save_papers_isolation_witness :
    (((crawlAndSavePapers [] sampleRecords (fun p => p.paper_id == "arxiv-B")).2.saved
        + (crawlAndSavePapers [] sampleRecords (fun p => p.paper_id == "arxiv-B")).2.duplicates
        + (crawlAndSavePapers [] sampleRecords (fun p => p.paper_id == "arxiv-B")).2.failed
      = (crawlAndSavePapers [] sampleRecords (fun p => p.paper_id == "arxiv-B")).2.total_crawled)
    ∧ (∀ p rest, p.paper_id ∉ ([] : List String) →
        (p.paper_id == "arxiv-B") = false →
        saveLoop (fun p => p.paper_id == "arxiv-B") [] (p :: rest)
          = ((saveLoop (fun p => p.paper_id == "arxiv-B") [] rest).1,
             (saveLoop (fun p => p.paper_id == "arxiv-B") [] rest).2.1,
             (saveLoop (fun p => p.paper_id == "arxiv-B") [] rest).2.2.1,
             (saveLoop (fun p => p.paper_id == "arxiv-B") [] rest).2.2.2 + 1))) :=
  crawl_and_save_papers_isolation [] sampleRecords (fun p => p.paper_id == "arxiv-B")

/-- Shallow embedding of `crawl_huggingface_papers`
(`crawler.py:192-212`) after the fetch returned `rawPapers`: the slice
`raw_papers[:limit]` is applied only when `limit` is truthy, then each
raw record is converted to its `PaperCreate` schema (the conversion is
the identity on the modelled fields). -/
def crawlHuggingfacePapers (rawPapers : List PaperCreate)
    (limit : Option Nat) : List PaperCreate :=
  let raw := if pyTruthy limit then rawPapers.take (limit.getD 0) else rawPapers
  raw.map id

/-- C10: passing `limit = 0` to the crawler or to batch analysis is the
same as passing no limit — the truthiness guard `if limit:` skips a
zero limit, so nothing is truncated to zero records. -/
theorem limit_zero_is_no_limit :
    (∀ rawPapers : List PaperCreate,
        crawlHuggingfacePapers rawPapers (some 0)
          = crawlHuggingfacePapers rawPapers none)
    ∧ (∀ (db : List Paper) (env : Paper → StepOutcome),
        generateReportsBatch db (some 0) env = generateReportsBatch db none env)
    ∧ (∀ rawPapers : List PaperCreate,
        crawlHuggingfacePapers rawPapers (some 0) = rawPapers) := by
  refine ⟨fun raw => rfl, fun db env => ?_, fun raw => by
    simp [crawlHuggingfacePapers, pyTruthy]⟩
  unfold generateReportsBatch selectNewPapers
  simp [pyTruthy]

/-- A `Task` audit row: the fields of `app/models/task.py` that the
route handler writes. -/
structure Task where
  task_type : String
  status : TaskStatus
  error_message : Option String
  end_time : Option Nat
deriving DecidableEq, Repr

/-- Shallow embedding of `PaperOrchestrator.regenerate_report`
(`orchestrator.py:269-299`): look the paper up by identifier; raise
`ValueError("Paper not found: ...")` when absent; otherwise run the
single-report protocol directly (bypassing the `NEW` filter) and
commit. -/
def regenerateReport (db : List Paper) (paper_id : String)
    (env : Paper → StepOutcome) : Except Err (List Paper × Report) :=
  match db.find? (fun p => p.paper_id == paper_id) with
  | none => .error (Err.notFound paper_id)
  | some paper =>
    match generateSingleReport paper (env paper) with
    | (p', .ok report) => .ok (updateDb db [p'], report)
    | (_, .error e) => .error e

/-- The body of `GenerateReportResponse` returned by the route. -/
structure GenerateReportResponse where
  task_id : Nat
  message : String
  status : String
deriving DecidableEq, Repr

/-- Shallow embedding of the single-paper branch of the
`/tasks/generate` route handler (`routes.py:273-345`): create a `Task`
row with status `RUNNING`; run the regeneration; on success finalize
the task `SUCCESS` with an end time; on any exception finalize it
`FAILED` with the error text and an end time, and re-signal the failure
to the caller as an HTTP 500 error. -/
def generateReportsRoute (db : List Paper) (paper_id : String)
    (env : Paper → StepOutcome) (now taskId : Nat) :
    Task × Except String GenerateReportResponse :=
  let task : Task :=
    { task_type := "GENERATE_SINGLE", status := TaskStatus.RUNNING,
      error_message := none, end_time := none }
  match regenerateReport db paper_id env with
  | .ok _ =>
    ({ task with status := TaskStatus.SUCCESS, end_time := some now },
     .ok { task_id := taskId,
           message := "Generated report for paper " ++ paper_id,
           status := "SUCCESS" })
  | .error e =>
    ({ task with
          status := TaskStatus.FAILED,
          error_message := some e.text,
          end_time := some now },
     .error ("Generation failed: " ++ e.text))

/-- C9: regeneration on an identifier with no matching `Paper` row
fails with the not-found error, and the wrapping `Task` audit record is
finalized `FAILED` — never `SUCCESS` — with the error text and an end
time, the failure being re-signaled to the caller. -/
theorem regenerate_report_not_found (db : List Paper) (paper_id : String)
    (env : Paper → StepOutcome) (now taskId : Nat)
    (h : ∀ p ∈ db, p.paper_id ≠ paper_id) :
    regenerateReport db paper_id env = .error (Err.notFound paper_id)
    ∧ (generateReportsRoute db paper_id env now taskId).1.status
        = TaskStatus.FAILED
    ∧ (generateReportsRoute db paper_id env now taskId).1.status
        ≠ TaskStatus.SUCCESS
    ∧ (generateReportsRoute db paper_id env now taskId).1.error_message
        = some ("Paper not found: " ++ paper_id)
    ∧ (generateReportsRoute db paper_id env now taskId).1.end_time = some now
    ∧ (generateReportsRoute db paper_id env now taskId).2
        = .error ("Generation failed: " ++ ("Paper not found: " ++ paper_id)) := by
  have hfind : db.find? (fun p => p.paper_id == paper_id) = none := by
    rw [List.find?_eq_none]
    intro p hp
    simpa using h p hp
  have hreg : regenerateReport db paper_id env = .error (Err.notFound paper_id) := by
    unfold regenerateReport
    rw [hfind]
  refine ⟨hreg, ?_⟩
  unfold generateReportsRoute
  rw [hreg]
  simp [Err.text]

/-- Witness for C9: the end-to-end scenario of the spec — regenerate on
the unknown identifier "zzz" against an empty store. -/
theorem regenerate_report_not_found_witness :
    regenerateReport [] "zzz" (fun _ => sampleOutcome)
        = .error (Err.notFound "zzz")
    ∧ (generateReportsRoute [] "zzz" (fun _ => sampleOutcome) 7 1).1.status
        = TaskStatus.FAILED
    ∧ (generateReportsRoute [] "zzz" (fun _ => sampleOutcome) 7 1).1.status
        ≠ TaskStatus.SUCCESS
    ∧ (generateReportsRoute [] "zzz" (fun _ => sampleOutcome) 7 1).1.error_message
        = some ("Paper not found: " ++ "zzz")
    ∧ (generateReportsRoute [] "zzz" (fun _ => sampleOutcome) 7 1).1.end_time
        = some 7
    ∧ (generateReportsRoute [] "zzz" (fun _ => sampleOutcome) 7 1).2
        = .error ("Generation failed: " ++ ("Paper not found: " ++ "zzz")) :=
  regenerate_report_not_found [] "zzz" (fun _ => sampleOutcome) 7 1
    (by simp)

/-- ASCII whitespace as recognized by Python `str.strip()`. -/
def pyIsSpace (c : Char) : Bool :=
  c == ' ' || c == '\t' || c == '\n' || c == '\r'
    || c == Char.ofNat 11 || c == Char.ofNat 12

/-- Python `str.strip()`: drop whitespace from both ends. -/
def pyStrip (s : List Char) : List Char :=
  ((s.dropWhile pyIsSpace).reverse.dropWhile pyIsSpace).reverse

/-- A decoded JSON value as seen by `_validate_report_content`: either
a Python `str` or some other object. -/
inductive PyValue
  | str (s : String)
  | other
deriving DecidableEq, Repr

/-- The 7 required report fields (`llm_service.py:233-241`). -/
def required_fields : List String :=
  ["core_summary", "research_background", "technical_innovation",
   "experiments_results", "application_value", "limitations",
   "recommended_audience"]

/-- The per-value check of the validation loop
(`llm_service.py:249-251`): the value passes iff it is a `str` whose
`strip()` is non-empty (`isinstance(value, str) and value.strip()`). -/
def isTruthyStr : PyValue → Bool
  | .str s => !(pyStrip s.toList).isEmpty
  | .other => false

/-- The validation loop over `content.items()`: the field of the first
entry whose value fails the check, if any. -/
def firstBadField : List (String × PyValue) → Option String
  | [] => none
  | (k, v) :: rest => if isTruthyStr v then firstBadField rest else some k

/-- Python `field in content` for the decoded dict, modelled as an
association list in insertion order. -/
def contentHasKey (content : List (String × PyValue)) (k : String) : Bool :=
  content.any (fun kv => kv.1 == k)

/-- Shallow embedding of `LLMService._validate_report_content`
(`llm_service.py:224-253`): collect the required fields absent from the
content and raise listing exactly those; otherwise scan all items and
raise on the first value that is not a non-empty string; otherwise
pass. -/
def validateReportContent (content : List (String × PyValue)) : Except Err Unit :=
  let missing := required_fields.filter (fun f => !(contentHasKey content f))
  if missing.isEmpty then
    match firstBadField content with
    | some f => .error (Err.validationBad f)
    | none => .ok ()
  else
    .error (Err.validationMissing missing)

theorem firstBadField_eq_none {content : List (String × PyValue)}
    (h : firstBadField content = none) :
    ∀ kv ∈ content, isTruthyStr kv.2 = true := by
  induction content with
  | nil => intro kv hkv; cases hkv
  | cons kv rest ih =>
    obtain ⟨k, v⟩ := kv
    by_cases hv : isTruthyStr v = true
    · intro kv' hkv'
      rcases List.mem_cons.mp hkv' with rfl | hmem
      · exact hv
      · exact ih (by simpa [firstBadField, hv] using h) kv' hmem
    · simp [firstBadField, hv] at h

/-- C7: validation fails with a `ValidationError` listing exactly the
required keys absent from the decoded object; a key present with a
value that is not a non-empty string also fails with a
`ValidationError`; and validation succeeds only if every one of the 7
required keys is present and maps to a non-empty string. -/
theorem validate_report_content_spec (content : List (String × PyValue)) :
    (required_fields.filter (fun f => !(contentHasKey content f)) ≠ [] →
      validateReportContent content
        = .error (Err.validationMissing
            (required_fields.filter (fun f => !(contentHasKey content f)))))
    ∧ (∀ k v, (k, v) ∈ content → isTruthyStr v = false →
        ∃ e, validateReportContent content = .error e)
    ∧ (validateReportContent content = .ok () →
        ∀ f ∈ required_fields, ∃ s, (f, PyValue.str s) ∈ content
          ∧ (pyStrip s.toList).isEmpty = false) := by
  refine ⟨fun hmiss => ?_, fun k v hkv hbad => ?_, fun hok => ?_⟩
  · unfold validateReportContent
    simp only [List.isEmpty_iff]
    rw [if_neg hmiss]
  · unfold validateReportContent
    by_cases hmiss :
        (required_fields.filter (fun f => !(contentHasKey content f))).isEmpty
    · rcases hbf : firstBadField content with _ | f
      · have := firstBadField_eq_none hbf (k, v) hkv
        simp only at this
        rw [this] at hbad
        cases hbad
      · exact ⟨Err.validationBad f, by simp [hmiss, hbf]⟩
    · refine ⟨Err.validationMissing
        (required_fields.filter (fun f => !(contentHasKey content f))), ?_⟩
      simp only [List.isEmpty_iff] at hmiss
      simp only [List.isEmpty_iff]
      rw [if_neg hmiss]
  · unfold validateReportContent at hok
    by_cases hmiss :
        (required_fields.filter (fun f => !(contentHasKey content f))).isEmpty
    · rcases hbf : firstBadField content with _ | f
      · intro f hf
        have hkey : contentHasKey content f = true := by
          by_contra hnk
          have : f ∈ required_fields.filter (fun g => !(contentHasKey content g)) := by
            rw [List.mem_filter]
            exact ⟨hf, by simpa using hnk⟩
          rw [List.isEmpty_iff] at hmiss
          rw [hmiss] at this
          cases this
        obtain ⟨kv, hkvmem, hkveq⟩ := List.any_eq_true.mp hkey
        obtain ⟨k', v'⟩ := kv
        have hk' : k' = f := by simpa using hkveq
        subst hk'
        have hgood := firstBadField_eq_none hbf (k', v') hkvmem
        rcases v' with s | _
        · refine ⟨s, hkvmem, ?_⟩
          simpa [isTruthyStr] using hgood
        · simp [isTruthyStr] at hgood
      · rw [if_pos hmiss, hbf] at hok
        cases hok
    · rw [if_neg hmiss] at hok
      cases hok

/-- A concrete well-formed content: all 7 required fields mapped to
non-empty strings. -/
def sampleContent : List (String × PyValue) :=
  required_fields.map (fun f => (f, PyValue.str "content"))

/-- Witness for C7 at a concrete content. -/
theorem validate_report_content_spec_witness :
    (required_fields.filter (fun f => !(contentHasKey sampleContent f)) ≠ [] →
      validateReportContent sampleContent
        = .error (Err.validationMissing
            (required_fields.filter (fun f => !(contentHasKey sampleContent f)))))
    ∧ (∀ k v, (k, v) ∈ sampleContent → isTruthyStr v = false →
        ∃ e, validateReportContent sampleContent = .error e)
    ∧ (validateReportContent sampleContent = .ok () →
        ∀ f ∈ required_fields, ∃ s, (f, PyValue.str s) ∈ sampleContent
          ∧ (pyStrip s.toList).isEmpty = false) :=
  validate_report_content_spec sampleContent

/-- The tenacity-backed retry runner built by `async_retry`
(`app/utils/retry.py:44-53`): attempt the wrapped call; on success
return its value; on a raised exception, retry when the exception is of
a retryable class and attempts remain (`stop_after_attempt`,
`retry_if_exception_type`), else re-raise the last exception
(`reraise=True`).  `outcomes k` is the result of the k-th invocation of
the wrapped function (0-based); the first component of the result is
the number of invocations made.  The zero-fuel arm is unreachable for
any configured `max_attempts ≥ 1`. -/
def retryRun {A : Type} (retryable : Err → Bool)
    (outcomes : Nat → Except Err A) : Nat → Nat → Nat × Except Err A
  | 0, k => (k, .error (Err.llmFailure "no attempts configured"))
  | fuel + 1, k =>
    match outcomes k with
    | .ok a => (k + 1, .ok a)
    | .error e =>
      if retryable e && (fuel != 0) then retryRun retryable outcomes fuel (k + 1)
      else (k + 1, .error e)

/-- `async_retry(max_attempts, ..., exceptions)` applied to a call with
per-invocation outcomes. -/
def asyncRetryRun {A : Type} (max_attempts : Nat) (retryable : Err → Bool)
    (outcomes : Nat → Except Err A) : Nat × Except Err A :=
  retryRun retryable outcomes max_attempts 0

/-- The decoration of `LLMService.generate_report`
(`llm_service.py:88`): `@async_retry(max_attempts=2,
exceptions=(Exception,))` — every exception is retryable, and the whole
method body (LLM call, response parsing, validation) is inside the
retried function. -/
def generateReportRetry {A : Type} (outcomes : Nat → Except Err A) :
    Nat × Except Err A :=
  asyncRetryRun 2 (fun _ => true) outcomes

/-- Whether an exception is of the transport classes
`(httpx.HTTPError, httpx.TimeoutException)`. -/
def isTransportErr : Err → Bool
  | .transport _ => true
  | _ => false

/-- The decoration of `HuggingFaceCrawler.fetch_daily_papers`
(`crawler.py:42`): `@async_retry(exceptions=(httpx.HTTPError,
httpx.TimeoutException))` with the configured
`settings.crawler.max_retries` attempts (default 3). -/
def fetchRetry {A : Type} (max_retries : Nat)
    (outcomes : Nat → Except Err A) : Nat × Except Err A :=
  asyncRetryRun max_retries isTransportErr outcomes

/-- Counterexample to C3 as stated: a `ResponseParseError` raised while
parsing the LLM response does not terminate the generation attempt
immediately — the decorator retries on every `Exception`, so the
wrapped `generate_report` (and with it the LLM call) is invoked a
second time: the invocation count is 2, not 1. -/
theorem generate_report_parse_error_is_retried :
    (generateReportRetry (A := LLMResult)
        (fun _ => .error (Err.parseError "Expecting value: line 1 column 1 (char 0)"))).1 = 2
    ∧ (generateReportRetry (A := LLMResult)
        (fun _ => .error (Err.parseError "Expecting value: line 1 column 1 (char 0)"))).1 ≠ 1
    ∧ (generateReportRetry (A := LLMResult)
        (fun _ => .error (Err.parseError "Expecting value: line 1 column 1 (char 0)"))).2
        = .error (Err.parseError "Expecting value: line 1 column 1 (char 0)") := by
  refine ⟨rfl, by decide, rfl⟩

/-- C3 (amended): the Fetcher's retry is applied with transport-class
exceptions only, so a non-transport failure of the fetch is not
retried; the Generator's retry wraps the entire `generate_report`
method with `max_attempts = 2` catching every exception, so any failure
of the first attempt — including a parse or validation failure — causes
exactly one further invocation of the wrapped method (re-invoking the
LLM), after which the outcome of the second attempt is final. -/
theorem async_retry_boundaries {A : Type} (outcomes : Nat → Except Err A)
    (e : Err) (h0 : outcomes 0 = .error e) (n : Nat) (hn : 1 ≤ n)
    (ht : isTransportErr e = false) :
    generateReportRetry outcomes = (2, outcomes 1)
    ∧ fetchRetry n outcomes = (1, .error e) := by
  constructor
  · rcases h1 : outcomes 1 with e' | a <;>
      simp [generateReportRetry, asyncRetryRun, retryRun, h0, h1]
  · obtain ⟨m, rfl⟩ : ∃ m, n = m + 1 := ⟨n - 1, by omega⟩
    simp [fetchRetry, asyncRetryRun, retryRun, h0, ht]

/-- Witness for the amended C3 at a concrete outcome sequence: the
first attempt fails with a parse error (not a transport error), the
default `max_retries = 3` is used for the fetch. -/
theorem async_retry_boundaries_witness :
    generateReportRetry (A := Unit) (fun _ => .error (Err.parseError "bad"))
        = (2, (fun _ => (.error (Err.parseError "bad") : Except Err Unit)) 1)
    ∧ fetchRetry (A := Unit) 3 (fun _ => .error (Err.parseError "bad"))
        = (1, .error (Err.parseError "bad")) :=
  async_retry_boundaries (fun _ => .error (Err.parseError "bad"))
    (Err.parseError "bad") rfl 3 (by decide) rfl

/-- The backtick character (used by the fenced-block markers). -/
def btick : Char := Char.ofNat 96

/-- The generic fenced-block marker searched for by
`_parse_llm_response`. -/
def fenceMarker : List Char := [btick, btick, btick]

/-- The tagged fenced-block marker (the generic marker followed by the
structured-data tag). -/
def jsonMarker : List Char := fenceMarker ++ ['j', 's', 'o', 'n']

/-- Whether `needle` occurs at the head of `hay` (character-wise
comparison, as Python substring search does at one position). -/
def startsWith : List Char → List Char → Bool
  | [], _ => true
  | _ :: _, [] => false
  | a :: as, b :: bs => a == b && startsWith as bs

/-- The scan underlying Python `hay.find(needle)`: the least position
(counted from `i`) where `needle` occurs in the remaining text, else
`none` (Python's `-1`). -/
def pyFindAux (needle : List Char) : List Char → Nat → Option Nat
  | [], i => if needle.isEmpty then some i else none
  | ch :: rest, i =>
    if startsWith needle (ch :: rest) then some i
    else pyFindAux needle rest (i + 1)

/-- Python `hay.find(needle, start)`. -/
def pyFind (hay needle : List Char) (start : Nat) : Option Nat :=
  (pyFindAux needle (hay.drop start) 0).map (· + start)

/-- Python `s[a:b]` where `b` is the result of a `find` call: a found
index slices up to it, Python's `-1` (not found) denotes the last
index, i.e. `s[a:len(s)-1]`. -/
def pySlice (s : List Char) (a : Nat) (b : Option Nat) : List Char :=
  match b with
  | some e => (s.take e).drop a
  | none => (s.take (s.length - 1)).drop a

/-- The fence-stripping step of `LLMService._parse_llm_response`
(`llm_service.py:202-215`): prefer the block tagged as structured data
(`find` of the tagged marker, content up to the next generic marker),
else any fenced block, else the raw text; the extracted text is
`strip()`ped. -/
def stripFence (response : List Char) : List Char :=
  match pyFind response jsonMarker 0 with
  | some i =>
    pyStrip (pySlice response (i + 7) (pyFind response fenceMarker (i + 7)))
  | none =>
    match pyFind response fenceMarker 0 with
    | some i =>
      pyStrip (pySlice response (i + 3) (pyFind response fenceMarker (i + 3)))
    | none => pyStrip response

/-- Shallow embedding of `_parse_llm_response`
(`llm_service.py:190-222`): strip the optional fence, decode the
remaining text as a structured object (`json.loads`, an external
library call, abstracted as `decode`), and turn a decode failure into
the `ResponseParseError` carrying the decode error text. -/
def parseLLMResponse {J : Type} (decode : List Char → Except String J)
    (response : List Char) : Except Err J :=
  match decode (stripFence response) with
  | .ok j => .ok j
  | .error e => .error (Err.parseError e)

/-- Content wrapped in a fenced block tagged as structured data. -/
def wrapJsonFence (c : List Char) : List Char :=
  jsonMarker ++ '\n' :: (c ++ '\n' :: fenceMarker)

/-- Content wrapped in a generic fenced block. -/
def wrapFence (c : List Char) : List Char :=
  fenceMarker ++ '\n' :: (c ++ '\n' :: fenceMarker)

theorem startsWith_self_append (mk X : List Char) :
    startsWith mk (mk ++ X) = true := by
  induction mk with
  | nil => rfl
  | cons m ms ih => simp [startsWith, ih]

theorem startsWith_of_append_left {mk₁ mk₂ l : List Char}
    (h : startsWith (mk₁ ++ mk₂) l = true) : startsWith mk₁ l = true := by
  induction mk₁ generalizing l with
  | nil => rfl
  | cons m ms ih =>
    cases l with
    | nil => simp [startsWith] at h
    | cons a l' =>
      simp only [List.cons_append, startsWith, Bool.and_eq_true] at h ⊢
      exact ⟨h.1, ih h.2⟩

theorem startsWith_le_length {mk l : List Char}
    (h : startsWith mk l = true) : mk.length ≤ l.length := by
  induction mk generalizing l with
  | nil => simp
  | cons m ms ih =>
    cases l with
    | nil => simp [startsWith] at h
    | cons a l' =>
      simp only [startsWith, Bool.and_eq_true] at h
      simpa using ih h.2

theorem startsWith_append_newline (mk l X : List Char)
    (hnl : ∀ ch ∈ mk, ch ≠ '\n')
    (h : startsWith mk (l ++ '\n' :: X) = true) :
    startsWith mk l = true := by
  induction mk generalizing l with
  | nil => rfl
  | cons m ms ih =>
    cases l with
    | nil =>
      simp only [List.nil_append, startsWith, Bool.and_eq_true, beq_iff_eq] at h
      exact absurd h.1 (hnl m (by simp))
    | cons a l' =>
      simp only [List.cons_append, startsWith, Bool.and_eq_true] at h ⊢
      exact ⟨h.1, ih l' (fun ch hm => hnl ch (List.mem_cons_of_mem m hm)) h.2⟩

theorem pyFindAux_shift (needle l : List Char) :
    ∀ i, pyFindAux needle l i = (pyFindAux needle l 0).map (· + i) := by
  induction l with
  | nil =>
    intro i
    by_cases hni : needle.isEmpty <;> simp [pyFindAux, hni]
  | cons ch rest ih =>
    intro i
    by_cases hsw : startsWith needle (ch :: rest) = true
    · simp [pyFindAux, hsw]
    · rcases hr : pyFindAux needle rest 0 with _ | m
      · simp [pyFindAux, hsw, ih (i + 1), ih 1, hr]
      · simp only [pyFindAux, hsw, Bool.false_eq_true, if_neg, not_false_iff,
          ih (i + 1), ih 1, hr, Option.map_some']
        congr 1
        omega

theorem pyFindAux_eq_none_iff {needle : List Char} (hne : needle ≠ [])
    (l : List Char) :
    pyFindAux needle l 0 = none ↔ ∀ j, startsWith needle (l.drop j) = false := by
  induction l with
  | nil =>
    cases needle with
    | nil => exact absurd rfl hne
    | cons m ms => simp [pyFindAux, startsWith]
  | cons ch rest ih =>
    by_cases hsw : startsWith needle (ch :: rest) = true
    · constructor
      · intro h
        simp [pyFindAux, hsw] at h
      · intro H
        have h0 := H 0
        rw [List.drop_zero, hsw] at h0
        cases h0
    · have hstep : pyFindAux needle (ch :: rest) 0 = pyFindAux needle rest 1 := by
        simp [pyFindAux, hsw]
      rw [hstep, pyFindAux_shift, Option.map_eq_none', ih]
      constructor
      · intro H j
        cases j with
        | zero => simpa using Bool.eq_false_iff.mpr hsw
        | succ j' => simpa [List.drop_succ_cons] using H j'
      · intro H j
        simpa [List.drop_succ_cons] using H (j + 1)

theorem pyFindAux_self (needle X : List Char) (hne : needle ≠ []) (i : Nat) :
    pyFindAux needle (needle ++ X) i = some i := by
  cases needle with
  | nil => exact absurd rfl hne
  | cons m ms =>
    have h : startsWith (m :: ms) ((m :: ms) ++ X) = true :=
      startsWith_self_append _ _
    simp only [List.cons_append] at h ⊢
    simp [pyFindAux, h]

theorem pyFindAux_fence_closing (c : List Char)
    (H : ∀ j, startsWith fenceMarker (c.drop j) = false) :
    ∀ i, pyFindAux fenceMarker (c ++ '\n' :: fenceMarker) i
      = some (i + c.length + 1) := by
  induction c with
  | nil =>
    intro i
    have h1 : startsWith fenceMarker ('\n' :: fenceMarker) = false := by decide
    have h2 : startsWith fenceMarker fenceMarker = true := by decide
    have h3 : fenceMarker = btick :: btick :: btick :: [] := rfl
    simp [pyFindAux, h1, h2, h3, startsWith]
    decide
  | cons ch c' ih =>
    intro i
    have hsw : startsWith fenceMarker ((ch :: c') ++ '\n' :: fenceMarker)
        = false := by
      by_contra hx
      have hx' : startsWith fenceMarker ((ch :: c') ++ '\n' :: fenceMarker)
          = true := by
        simpa using Bool.not_eq_false _ |>.mp hx
      have hpre := startsWith_append_newline fenceMarker (ch :: c') fenceMarker
        (by decide) hx'
      have h0 := H 0
      rw [List.drop_zero] at h0
      rw [hpre] at h0
      cases h0
    have H' : ∀ j, startsWith fenceMarker (c'.drop j) = false := fun j => by
      simpa [List.drop_succ_cons] using H (j + 1)
    have hrec := ih H' (i + 1)
    simp only [List.cons_append] at hsw
    have hstep : pyFindAux fenceMarker (ch :: (c' ++ '\n' :: fenceMarker)) i
        = pyFindAux fenceMarker (c' ++ '\n' :: fenceMarker) (i + 1) := by
      simp [pyFindAux, hsw]
    rw [List.cons_append, hstep, hrec]
    simp only [List.length_cons]
    congr 1
    omega

theorem pyStrip_cons_space (a : Char) (l : List Char) (ha : pyIsSpace a = true) :
    pyStrip (a :: l) = pyStrip l := by
  unfold pyStrip
  simp [List.dropWhile_cons, ha]

theorem pyStrip_append_space (l : List Char) (a : Char) (ha : pyIsSpace a = true) :
    pyStrip (l ++ [a]) = pyStrip l := by
  unfold pyStrip
  rw [List.dropWhile_append]
  by_cases he : (l.dropWhile pyIsSpace).isEmpty
  · rw [List.isEmpty_iff] at he
    simp [he, List.dropWhile_cons, ha]
  · simp only [Bool.not_eq_true] at he
    simp [he, List.reverse_append, List.dropWhile_cons, ha]

theorem pySlice_some (s : List Char) (a e : Nat) :
    pySlice s a (some e) = (s.take e).drop a := rfl

theorem pySlice_mid (pre mid post s : List Char) (a e : Nat)
    (hs : s = (pre ++ mid) ++ post) (ha : a = pre.length)
    (he : e = pre.length + mid.length) :
    pySlice s a (some e) = mid := by
  subst hs
  subst ha
  subst he
  rw [pySlice_some, List.take_left' (by simp), List.drop_left]

theorem wrapJsonFence_decomp (c : List Char) :
    wrapJsonFence c = (jsonMarker ++ ('\n' :: (c ++ ['\n']))) ++ fenceMarker := by
  simp [wrapJsonFence]

theorem wrapFence_decomp (c : List Char) :
    wrapFence c = (fenceMarker ++ ('\n' :: (c ++ ['\n']))) ++ fenceMarker := by
  simp [wrapFence]

theorem fence_not_at_newline (X : List Char) :
    startsWith fenceMarker ('\n' :: X) = false := by
  simp [startsWith, fenceMarker, show (btick == '\n') = false from by decide]

theorem pyFindAux_fence_inner (c : List Char)
    (H : ∀ j, startsWith fenceMarker (c.drop j) = false) :
    pyFindAux fenceMarker ('\n' :: (c ++ '\n' :: fenceMarker)) 0
      = some (c.length + 2) := by
  have h1 : pyFindAux fenceMarker ('\n' :: (c ++ '\n' :: fenceMarker)) 0
      = pyFindAux fenceMarker (c ++ '\n' :: fenceMarker) 1 := by
    simp [pyFindAux, fence_not_at_newline]
  rw [h1, pyFindAux_fence_closing c H 1]
  congr 1
  omega

theorem stripFence_wrapJsonFence (c : List Char)
    (H : ∀ j, startsWith fenceMarker (c.drop j) = false) :
    stripFence (wrapJsonFence c) = pyStrip c := by
  have hfj : pyFind (wrapJsonFence c) jsonMarker 0 = some 0 := by
    unfold pyFind wrapJsonFence
    rw [List.drop_zero,
      pyFindAux_self jsonMarker ('\n' :: (c ++ '\n' :: fenceMarker)) (by decide) 0]
    rfl
  have hdrop : (wrapJsonFence c).drop 7 = '\n' :: (c ++ '\n' :: fenceMarker) := by
    unfold wrapJsonFence
    exact List.drop_left' (by decide)
  have hff : pyFind (wrapJsonFence c) fenceMarker 7 = some (c.length + 9) := by
    unfold pyFind
    rw [hdrop, pyFindAux_fence_inner c H]
    rfl
  have hslice : pySlice (wrapJsonFence c) 7 (some (c.length + 9))
      = '\n' :: (c ++ ['\n']) := by
    apply pySlice_mid jsonMarker ('\n' :: (c ++ ['\n'])) fenceMarker
    · exact wrapJsonFence_decomp c
    · decide
    · have h7 : jsonMarker.length = 7 := by decide
      simp only [h7, List.length_cons, List.length_append, List.length_nil]
      omega
  have hbranch : stripFence (wrapJsonFence c)
      = pyStrip (pySlice (wrapJsonFence c) (0 + 7)
          (pyFind (wrapJsonFence c) fenceMarker (0 + 7))) := by
    unfold stripFence
    rw [hfj]
  rw [hbranch]
  simp only [Nat.zero_add]
  rw [hff, hslice, pyStrip_cons_space _ _ (by decide),
    pyStrip_append_space _ _ (by decide)]

theorem jsonMarker_not_in_wrapFence (c : List Char)
    (H : ∀ j, startsWith fenceMarker (c.drop j) = false) :
    ∀ j, startsWith jsonMarker ((wrapFence c).drop j) = false := by
  intro j
  by_contra hx
  have hx' : startsWith jsonMarker ((wrapFence c).drop j) = true := by
    simpa using Bool.not_eq_false _ |>.mp hx
  unfold wrapFence at hx'
  rw [List.drop_append_eq_append_drop] at hx'
  by_cases hj : j ≤ 3
  · have h0 : j - fenceMarker.length = 0 := by
      have : fenceMarker.length = 3 := by decide
      omega
    rw [h0, List.drop_zero] at hx'
    have hpre := startsWith_append_newline jsonMarker (fenceMarker.drop j)
      (c ++ '\n' :: fenceMarker) (by decide) hx'
    have hlen := startsWith_le_length hpre
    have hd3 : (fenceMarker.drop j).length ≤ 3 := by
      have : fenceMarker.length = 3 := by decide
      simp [List.length_drop]
      omega
    have h7 : jsonMarker.length = 7 := by decide
    omega
  · have hdropf : fenceMarker.drop j = [] := by
      apply List.drop_eq_nil_of_le
      have : fenceMarker.length = 3 := by decide
      omega
    rw [hdropf, List.nil_append] at hx'
    have hj3 : j - fenceMarker.length = (j - 4) + 1 := by
      have : fenceMarker.length = 3 := by decide
      omega
    rw [hj3, List.drop_succ_cons, List.drop_append_eq_append_drop] at hx'
    by_cases hjc : j - 4 ≤ c.length
    · have h0 : j - 4 - c.length = 0 := by omega
      rw [h0, List.drop_zero] at hx'
      have hpre := startsWith_append_newline jsonMarker (c.drop (j - 4))
        fenceMarker (by decide) hx'
      have hpre' : startsWith (fenceMarker ++ ['j', 's', 'o', 'n'])
          (c.drop (j - 4)) = true := hpre
      have hf := startsWith_of_append_left hpre'
      have hHj := H (j - 4)
      rw [hf] at hHj
      cases hHj
    · have hcd : c.drop (j - 4) = [] := List.drop_eq_nil_of_le (by omega)
      rw [hcd, List.nil_append] at hx'
      have hlen := startsWith_le_length hx'
      have hm1 : 1 ≤ j - 4 - c.length := by omega
      have hlend : (('\n' :: fenceMarker).drop (j - 4 - c.length)).length ≤ 3 := by
        have h4 : ('\n' :: fenceMarker).length = 4 := by decide
        rw [List.length_drop, h4]
        omega
      have h7 : jsonMarker.length = 7 := by decide
      omega

theorem stripFence_wrapFence (c : List Char)
    (H : ∀ j, startsWith fenceMarker (c.drop j) = false) :
    stripFence (wrapFence c) = pyStrip c := by
  have hnone : pyFind (wrapFence c) jsonMarker 0 = none := by
    unfold pyFind
    rw [List.drop_zero, Option.map_eq_none']
    exact (pyFindAux_eq_none_iff (by decide) _).mpr
      (jsonMarker_not_in_wrapFence c H)
  have hf0 : pyFind (wrapFence c) fenceMarker 0 = some 0 := by
    unfold pyFind wrapFence
    rw [List.drop_zero,
      pyFindAux_self fenceMarker ('\n' :: (c ++ '\n' :: fenceMarker)) (by decide) 0]
    rfl
  have hdrop : (wrapFence c).drop 3 = '\n' :: (c ++ '\n' :: fenceMarker) := by
    unfold wrapFence
    exact List.drop_left' (by decide)
  have hff : pyFind (wrapFence c) fenceMarker 3 = some (c.length + 5) := by
    unfold pyFind
    rw [hdrop, pyFindAux_fence_inner c H]
    rfl
  have hslice : pySlice (wrapFence c) 3 (some (c.length + 5))
      = '\n' :: (c ++ ['\n']) := by
    apply pySlice_mid fenceMarker ('\n' :: (c ++ ['\n'])) fenceMarker
    · exact wrapFence_decomp c
    · decide
    · have h3 : fenceMarker.length = 3 := by decide
      simp only [h3, List.length_cons, List.length_append, List.length_nil]
      omega
  have hbranch : stripFence (wrapFence c)
      = pyStrip (pySlice (wrapFence c) (0 + 3)
          (pyFind (wrapFence c) fenceMarker (0 + 3))) := by
    unfold stripFence
    rw [hnone, hf0]
  rw [hbranch]
  simp only [Nat.zero_add]
  rw [hff, hslice, pyStrip_cons_space _ _ (by decide),
    pyStrip_append_space _ _ (by decide)]

theorem stripFence_bare (c : List Char)
    (H : ∀ j, startsWith fenceMarker (c.drop j) = false) :
    stripFence c = pyStrip c := by
  have hjs : ∀ j, startsWith jsonMarker (c.drop j) = false := by
    intro j
    by_contra hx
    have hx' : startsWith jsonMarker (c.drop j) = true := by
      simpa using Bool.not_eq_false _ |>.mp hx
    have hx'' : startsWith (fenceMarker ++ ['j', 's', 'o', 'n'])
        (c.drop j) = true := hx'
    have hf := startsWith_of_append_left hx''
    have hHj := H j
    rw [hf] at hHj
    cases hHj
  have h1 : pyFind c jsonMarker 0 = none := by
    unfold pyFind
    rw [List.drop_zero, Option.map_eq_none']
    exact (pyFindAux_eq_none_iff (by decide) _).mpr hjs
  have h2 : pyFind c fenceMarker 0 = none := by
    unfold pyFind
    rw [List.drop_zero, Option.map_eq_none']
    exact (pyFindAux_eq_none_iff (by decide) _).mpr H
  unfold stripFence
  rw [h1, h2]

/-- C8: for any content that does not itself contain the fence marker,
parsing the raw LLM response yields the same decoded record whether the
content arrives wrapped in a tagged fenced block, in a generic fenced
block, or bare — all three strip to the same `strip()`ped content — the
tagged block is preferred when both markers occur (concrete case: a
generic block followed by a tagged block yields the tagged block's
content), and a decode failure produces the `ResponseParseError`
carrying the decode error text. -/
theorem parse_llm_response_wrappers {J : Type}
    (decode : List Char → Except String J) (c : List Char)
    (hnf : pyFind c fenceMarker 0 = none) :
    parseLLMResponse decode (wrapJsonFence c) = parseLLMResponse decode c
    ∧ parseLLMResponse decode (wrapFence c) = parseLLMResponse decode c
    ∧ stripFence (wrapJsonFence c) = pyStrip c
    ∧ stripFence (wrapFence c) = pyStrip c
    ∧ stripFence c = pyStrip c
    ∧ (∀ e, decode (pyStrip c) = .error e →
        parseLLMResponse decode c = .error (Err.parseError e))
    ∧ stripFence (wrapFence ['A'] ++ wrapJsonFence ['B']) = ['B'] := by
  have H : ∀ j, startsWith fenceMarker (c.drop j) = false := by
    have h := hnf
    unfold pyFind at h
    rw [List.drop_zero, Option.map_eq_none'] at h
    exact (pyFindAux_eq_none_iff (by decide) _).mp h
  have hj := stripFence_wrapJsonFence c H
  have hg := stripFence_wrapFence c H
  have hb := stripFence_bare c H
  refine ⟨?_, ?_, hj, hg, hb, ?_, ?_⟩
  · unfold parseLLMResponse
    rw [hj, hb]
  · unfold parseLLMResponse
    rw [hg, hb]
  · intro e he
    unfold parseLLMResponse
    rw [hb, he]
  · decide

/-- The left brace character. -/
def lbrace : Char := Char.ofNat 123

/-- The right brace character. -/
def rbrace : Char := Char.ofNat 125

/-- The double-quote character. -/
def dq : Char := Char.ofNat 34

/-- A structured-data blob whose string value contains the fence
marker: the JSON text for a record mapping key a to the string
x-backtick-backtick-backtick-space-5-space-backtick-backtick-backtick. -/
def fencedContent : List Char :=
  [lbrace, dq, 'a', dq, ':', dq, 'x', btick, btick, btick, ' ', '5', ' ',
   btick, btick, btick, dq, rbrace]

/-- The behaviour of `json.loads` on the two texts this scenario
extracts: the digit 5 decodes to the number 5; the truncated record
text is not decodable. -/
def decodeDigit : List Char → Except String Nat := fun l =>
  if l = ['5'] then .ok 5 else .error "Expecting value"

/-- Counterexample to C8 as universally stated: for content that
itself contains the fence marker inside a string value, the bare form
decodes (to the text between the in-content markers) while the
tagged-wrapped form of the same content raises `ResponseParseError` —
the three forms do not yield the same decoded record for arbitrary
content. -/
theorem parse_llm_response_not_wrapper_invariant :
    parseLLMResponse decodeDigit fencedContent = .ok 5
    ∧ parseLLMResponse decodeDigit (wrapJsonFence fencedContent)
        = .error (Err.parseError "Expecting value")
    ∧ parseLLMResponse decodeDigit (wrapJsonFence fencedContent)
        ≠ parseLLMResponse decodeDigit fencedContent := by
  refine ⟨by decide, by decide, by decide⟩

/-- A concrete stand-in for the external structured decoder, accepting
exactly the content used by the witness. -/
def decodeEx : List Char → Except String Bool := fun l =>
  if l = ['o', 'k'] then .ok true else .error "Expecting value"

/-- Witness for C8 at concrete content and decoder. -/
theorem parse_llm_response_wrappers_witness :
    parseLLMResponse decodeEx (wrapJsonFence ['o', 'k'])
        = parseLLMResponse decodeEx ['o', 'k']
    ∧ parseLLMResponse decodeEx (wrapFence ['o', 'k'])
        = parseLLMResponse decodeEx ['o', 'k']
    ∧ stripFence (wrapJsonFence ['o', 'k']) = pyStrip ['o', 'k']
    ∧ stripFence (wrapFence ['o', 'k']) = pyStrip ['o', 'k']
    ∧ stripFence ['o', 'k'] = pyStrip ['o', 'k']
    ∧ (∀ e, decodeEx (pyStrip ['o', 'k']) = .error e →
        parseLLMResponse decodeEx ['o', 'k'] = .error (Err.parseError e))
    ∧ stripFence (wrapFence ['A'] ++ wrapJsonFence ['B']) = ['B'] :=
  parse_llm_response_wrappers decodeEx ['o', 'k'] (by decide)

end AutoScholar
